import Mathlib

set_option maxHeartbeats 4000000
set_option maxRecDepth 8000

/-!
Shallow embedding of `src/converter/src/main/rules/filter-rule-builder.js`
(the `SafariContentBlockerConverter` IIFE and the `convertLine` /
`convertArray` pipeline around it).

Modelling choices:
* JS objects of shape `{trigger, action}` become the structures `Trigger`,
  `Action`, `Entry`; a JS key that may be absent becomes an `Option` field
  (JS `delete` sets it back to `none`).
* JS exceptions become `Except String`; `throw new Error(msg)` is
  `.error msg`, a `catch` is a `match`.
* The parsed AdGuard rule objects (`UrlFilterRule` / `CssFilterRule` ...)
  are produced by code outside `src/`; the accessor surface the converter
  reads is modelled as the structure `AGRule` (methods such as
  `isDocumentWhiteList()` or `checkContentTypeMask(ct)` become fields).
* The two host/library functions the converter calls that live outside
  `src/` are parameters of the embedding: `toPuny` stands for
  `adguard.utils.url.toPunyCode` and `createRule` stands for
  `adguard.rules.builder.createRule` (which may return `null`, i.e.
  `none`).
* `JSON.stringify(converted, null, "\t")` is a host function; the result
  field `converted` is modelled as the entry list that is serialized.
* The process-wide `regexConfiguration` save/restore in `convertArray`
  only affects the external rule engine (`getUrlRegExpSource`, modelled as
  the rule field `urlRegExpSource`), so it has no observable effect inside
  the embedding.
-/

namespace SafariConverter

/-! ### Small string utilities (JS `indexOf` / `substring` analogues) -/

/-- Index of the first occurrence of `sub` in `s` (JS `String.indexOf`),
`none` when absent. -/
def subIdx (sub : List Char) : List Char → Option Nat
  | [] => if sub.isEmpty then some 0 else none
  | c :: rest =>
    if sub.isPrefixOf (c :: rest) then some 0
    else (subIdx sub rest).map (· + 1)

/-- JS `s.indexOf(sub, start)`. -/
def subIdxFrom (sub : List Char) (s : List Char) (start : Nat) : Option Nat :=
  (subIdx sub (s.drop start)).map (· + start)

/-- JS `hay.indexOf(sub) >= 0`. -/
def containsSub (hay sub : List Char) : Bool :=
  (subIdx sub hay).isSome

/-- JS string concatenation prints `null` for a null argument. -/
def optStr : Option String → String
  | some s => s
  | none => "null"

/-- Model of the host `String.prototype.toLowerCase` (exact on the ASCII
range handled by domain names); kept kernel-reducible. -/
def jsToLowerCase (s : String) : String :=
  String.mk (s.data.map Char.toLower)

/-- JS `s.startsWith(p)` (kernel-reducible form). -/
def strStartsWith (s p : String) : Bool :=
  p.data.isPrefixOf s.data

/-! ### Constants of the converter (verbatim from the source) -/

def MAX_SELECTORS_PER_WIDE_RULE : Nat := 250

def ANY_URL_TEMPLATES : List String := ["||*", "", "*", "|*"]

def URL_FILTER_ANY_URL : String := "^[htpsw]+:\\/\\/"

def URL_FILTER_WS_ANY_URL : String := "^wss?:\\/\\/"

def URL_FILTER_CSS_RULES : String := ".*"

def URL_FILTER_REGEXP_START_URL : String := URL_FILTER_ANY_URL ++ "([a-z0-9-]+\\.)?"

def URL_FILTER_REGEXP_SEPARATOR : String := "[/:&?]?"

/-
The content-type and option bitmask constants below belong to the external
`adguard.rules.UrlFilterRule` (its file is not under `src/`); the spec
fixes only their names, so the values are chosen as distinct powers of
two, with `ALL` the union of all content types.
-/

namespace contentTypes

/-- Modelled from the spec: content-type bitmask constant. -/
def IMAGE : Nat := 1

/-- Modelled from the spec: content-type bitmask constant. -/
def STYLESHEET : Nat := 2

/-- Modelled from the spec: content-type bitmask constant. -/
def SCRIPT : Nat := 4

/-- Modelled from the spec: content-type bitmask constant. -/
def MEDIA : Nat := 8

/-- Modelled from the spec: content-type bitmask constant. -/
def XMLHTTPREQUEST : Nat := 16

/-- Modelled from the spec: content-type bitmask constant. -/
def OTHER : Nat := 32

/-- Modelled from the spec: content-type bitmask constant. -/
def WEBSOCKET : Nat := 64

/-- Modelled from the spec: content-type bitmask constant. -/
def FONT : Nat := 128

/-- Modelled from the spec: content-type bitmask constant. -/
def SUBDOCUMENT : Nat := 256

/-- Modelled from the spec: content-type bitmask constant. -/
def OBJECT : Nat := 512

/-- Modelled from the spec: content-type bitmask constant. -/
def OBJECT_SUBREQUEST : Nat := 1024

/-- Modelled from the spec: content-type bitmask constant. -/
def WEBRTC : Nat := 2048

/-- Modelled from the spec: the union of all content-type bits. -/
def ALL : Nat := 4095

end contentTypes

namespace options

/-- Modelled from the spec: option bitmask constant. -/
def JSINJECT : Nat := 1

/-- Modelled from the spec: option bitmask constant. -/
def URLBLOCK : Nat := 2

/-- Modelled from the spec: option bitmask constant. -/
def GENERICBLOCK : Nat := 4

/-- Modelled from the spec: option bitmask constant. -/
def GENERICHIDE : Nat := 8

/-- Modelled from the spec: option bitmask constant. -/
def ELEMHIDE : Nat := 16

end options

/-! ### The output entry shape -/

/-- The `trigger` object of a Safari content-blocker entry.  Field names
map to JSON keys: `urlFilter` is `url-filter`, `caseSensitive` is
`url-filter-is-case-sensitive`, `resourceType` is `resource-type`,
`loadType` is `load-type`, `ifDomain` is `if-domain`, `unlessDomain` is
`unless-domain`.  `none` models an absent key. -/
structure Trigger where
  urlFilter : String
  caseSensitive : Option Bool := none
  resourceType : Option (List String) := none
  loadType : Option (List String) := none
  ifDomain : Option (List String) := none
  unlessDomain : Option (List String) := none
deriving DecidableEq, Repr

/-- The `action` object of an entry. -/
structure Action where
  type : String
  selector : Option String := none
deriving DecidableEq, Repr

/-- One converted content-blocker entry. -/
structure Entry where
  trigger : Trigger
  action : Action
deriving DecidableEq, Repr

/-! ### The parsed AdGuard rule model (external accessor surface) -/

/-- The dynamic class of a parsed rule: the converter dispatches on
`instanceof adguard.rules.CssFilterRule` / `UrlFilterRule`; every other
class is unsupported. -/
inductive RuleKind where
  | css
  | url
  | other
deriving DecidableEq, Repr

/-- Accessor surface of a parsed AdGuard rule object as read by the
converter.  The rule classes live outside `src/`, so methods become
fields: `whiteListRule`, `isImportant`, `isBadFilter()`/`badFilter`,
`getUrlRuleText()` (as `urlRuleText`), `urlRegExp.source` (as `urlRegExp`,
`none` when the property is absent), `getUrlRegExpSource()` (as
`urlRegExpSource`, `none` for a null result), `checkContentTypeMask` (kept
as a function field), `getReplace()` truthiness (as `hasReplace`), and the
boolean predicate methods under their source names. -/
structure AGRule where
  kind : RuleKind
  ruleText : String
  whiteListRule : Bool := false
  isImportant : Bool := false
  isBadFilter : Bool := false
  badFilter : String := ""
  urlRuleText : String := ""
  isRegexRule : Bool := false
  urlRegExp : Option String := none
  urlRegExpSource : Option String := none
  permittedContentType : Nat := contentTypes.ALL
  restrictedContentType : Nat := 0
  enabledOptions : Nat := 0
  isThirdParty : Bool := false
  isCheckThirdParty : Bool := false
  isMatchCase : Bool := false
  isBlockPopups : Bool := false
  isCsp : Bool := false
  isDocumentWhiteList : Bool := false
  hasReplace : Bool := false
  checkContentTypeMask : Nat → Bool := fun _ => false
  permittedDomain : Option String := none
  permittedDomains : Option (List String) := none
  restrictedDomain : Option String := none
  restrictedDomains : Option (List String) := none
  cssSelector : String := ""
  isInjectRule : Bool := false
  extendedCss : Bool := false

/-- One element of the `rules` argument of `convertArray` / `convertLines`:
either a text line (possibly the JS `null`, hence `Option String`) or an
already-parsed rule object.  The source dispatches on
`rules[j] !== null && rules[j].ruleText`. -/
inductive InputItem where
  | line (s : Option String)
  | rule (r : AGRule)

/-! ### AGRuleConverter -/

/-- `parseDomains`: collects the `included`/`excluded` domain lists of a
rule.  Note that the source iterates `permittedDomains` /
`restrictedDomains` with `while (iDomains--)`, i.e. in reverse order, and
skips empty strings. -/
def parseDomains (toPuny : String → String) (rule : AGRule) :
    List String × List String :=
  let included :=
    match rule.permittedDomain with
    | some d =>
      if d ≠ "" then [toPuny (jsToLowerCase d)]
      else
        match rule.permittedDomains with
        | some ds => (ds.reverse.filter (· ≠ "")).map (fun d => toPuny (jsToLowerCase d))
        | none => []
    | none =>
      match rule.permittedDomains with
      | some ds => (ds.reverse.filter (· ≠ "")).map (fun d => toPuny (jsToLowerCase d))
      | none => []
  let excluded :=
    match rule.restrictedDomain with
    | some d =>
      if d ≠ "" then [toPuny (jsToLowerCase d)]
      else
        match rule.restrictedDomains with
        | some ds => (ds.reverse.filter (· ≠ "")).map (fun d => toPuny (jsToLowerCase d))
        | none => []
    | none =>
      match rule.restrictedDomains with
      | some ds => (ds.reverse.filter (· ≠ "")).map (fun d => toPuny (jsToLowerCase d))
      | none => []
  (included, excluded)

/-- `writeDomainOptions`: writes `if-domain`/`unless-domain`, throwing when
both sides are non-empty. -/
def writeDomainOptions (included excluded : List String) (trigger : Trigger) :
    Except String Trigger :=
  if included ≠ [] ∧ excluded ≠ [] then
    .error "Safari does not support both permitted and restricted domains"
  else
    let trigger := if included ≠ [] then {trigger with ifDomain := some included} else trigger
    let trigger := if excluded ≠ [] then {trigger with unlessDomain := some excluded} else trigger
    .ok trigger

/-- `addDomainOptions`. -/
def addDomainOptions (toPuny : String → String) (trigger : Trigger)
    (rule : AGRule) : Except String Trigger :=
  let (included, excluded) := parseDomains toPuny rule
  writeDomainOptions included excluded trigger

/-- `addThirdParty`. -/
def addThirdParty (trigger : Trigger) (rule : AGRule) : Trigger :=
  if rule.isCheckThirdParty then
    {trigger with loadType := some [if rule.isThirdParty then "third-party" else "first-party"]}
  else trigger

/-- `addMatchCase`. -/
def addMatchCase (trigger : Trigger) (rule : AGRule) : Trigger :=
  if rule.isMatchCase then {trigger with caseSensitive := some true} else trigger

/-- `setWhiteList`. -/
def setWhiteList (rule : AGRule) (result : Entry) : Entry :=
  if rule.whiteListRule then
    {result with action := {result.action with type := "ignore-previous-rules"}}
  else result

/-- `hasContentType`: delegates to the rule's `checkContentTypeMask`. -/
def hasContentType (rule : AGRule) (contentType : Nat) : Bool :=
  rule.checkContentTypeMask contentType

/-- `isContentType`. -/
def isContentType (rule : AGRule) (contentType : Nat) : Bool :=
  rule.permittedContentType = contentType

/-- `isSingleOption`: exact equality of the enabled-options bitmask. -/
def isSingleOption (rule : AGRule) (option : Nat) : Bool :=
  rule.enabledOptions = option

/-- `addResourceType`. -/
def addResourceType (rule : AGRule) (result : Entry) : Except String Entry :=
  if rule.permittedContentType = contentTypes.ALL ∧ rule.restrictedContentType = 0 then
    -- Safari's default content types are used.
    .ok result
  else
    let types : List String :=
      (if hasContentType rule contentTypes.IMAGE then ["image"] else []) ++
      (if hasContentType rule contentTypes.STYLESHEET then ["style-sheet"] else []) ++
      (if hasContentType rule contentTypes.SCRIPT then ["script"] else []) ++
      (if hasContentType rule contentTypes.MEDIA then ["media"] else []) ++
      (if hasContentType rule contentTypes.XMLHTTPREQUEST ∨
          hasContentType rule contentTypes.OTHER ∨
          hasContentType rule contentTypes.WEBSOCKET then ["raw"] else []) ++
      (if hasContentType rule contentTypes.FONT then ["font"] else []) ++
      (if hasContentType rule contentTypes.SUBDOCUMENT then ["document"] else [])
    let types := if rule.isBlockPopups then ["popup"] else types
    if isContentType rule contentTypes.OBJECT then
      .error "$object content type is not yet supported"
    else if isContentType rule contentTypes.OBJECT_SUBREQUEST then
      .error "$object_subrequest content type is not yet supported"
    else if isContentType rule contentTypes.WEBRTC then
      .error "$webrtc content type is not yet supported"
    else if isSingleOption rule options.JSINJECT then
      .error "$jsinject rules are ignored."
    else if rule.hasReplace then
      .error "$replace rules are ignored."
    else if types ≠ [] then
      .ok {result with trigger := {result.trigger with resourceType := some types}}
    else
      .ok result

/-- `createUrlFilterString`. -/
def createUrlFilterString (rule : AGRule) : String :=
  let urlRuleText := rule.urlRuleText
  let isWebSocket := rule.permittedContentType = contentTypes.WEBSOCKET
  if ANY_URL_TEMPLATES.contains urlRuleText then
    if isWebSocket then URL_FILTER_WS_ANY_URL else URL_FILTER_ANY_URL
  else if rule.isRegexRule && rule.urlRegExp.isSome then
    rule.urlRegExp.getD ""
  else
    match rule.urlRegExpSource with
    | none => URL_FILTER_ANY_URL
    | some src =>
      if src = "" then URL_FILTER_ANY_URL
      else if isWebSocket && !(strStartsWith src "^") && !(strStartsWith src "ws") then
        URL_FILTER_WS_ANY_URL ++ ".*" ++ src
      else src

/-! ### `validateRegExp`: the five forbidden regex patterns

Each JS `regExp.match(p)` test is implemented as an executable scan that
decides whether the pattern `p` matches anywhere in the string. -/

def isDigitOrComma (c : Char) : Bool :=
  ('0' ≤ c && c ≤ '9') || c = ','

/-- Matcher for a single position: the leading `\x7b`, a non-empty run of
`[0-9,]` and a closing `\x7d` (the class excludes the closing brace, so
the greedy run is exact). -/
def braceQuantAt : List Char → Bool
  | '\x7b' :: rest =>
    let run := rest.takeWhile isDigitOrComma
    !run.isEmpty &&
      (match rest.drop run.length with
       | '\x7d' :: _ => true
       | _ => false)
  | _ => false

/-- JS `/\{[0-9,]+\}/` matches somewhere in the string. -/
def hasBraceQuant (s : List Char) : Bool :=
  s.tails.any braceQuantAt

/-- JS `/[^\\]+\|+\S*/` matches iff some `|` is immediately preceded by a
non-backslash character. -/
def hasUnescapedPipe : List Char → Bool
  | a :: b :: rest => (a ≠ '\\' && b = '|') || hasUnescapedPipe (b :: rest)
  | _ => false

/-- JS `/[^\x00-\x7F]/`. -/
def hasNonAscii (s : List Char) : Bool :=
  s.any (fun c => 0x7F < c.toNat)

/-- JS line terminators not matched by `.`. -/
def isLineTerm (c : Char) : Bool :=
  c = '\n' || c = '\r' || c.toNat = 0x2028 || c.toNat = 0x2029

/-- Matcher for `\(\?!` at this position followed by `.*\)`: a `)` must
occur before any line terminator. -/
def negLookaheadAt : List Char → Bool
  | '(' :: '?' :: '!' :: rest =>
    (rest.takeWhile (fun c => !isLineTerm c)).contains ')'
  | _ => false

/-- JS `/\(\?!.*\)/`. -/
def hasNegLookahead (s : List Char) : Bool :=
  s.tails.any negLookaheadAt

def metaCharacters : List Char :=
  ['b', 'B', 'd', 'D', 'f', 'n', 'r', 's', 'S', 't', 'v', 'w', 'W']

/-- JS `/[^\\]\\[bBdDfnrsStvwW]/`. -/
def hasBadMeta : List Char → Bool
  | a :: b :: c :: rest =>
    (a ≠ '\\' && b = '\\' && metaCharacters.contains c) ||
      hasBadMeta (b :: c :: rest)
  | _ => false

def MSG_BRACES : String :=
  "Safari doesn\x27t support \x27\x7bdigit\x7d\x27 in regular expressions"

def MSG_PIPE : String :=
  "Safari doesn\x27t support \x27|\x27 in regular expressions"

def MSG_NON_ASCII : String :=
  "Safari doesn\x27t support non-ASCII characters in regular expressions"

def MSG_LOOKAHEAD : String :=
  "Safari doesn\x27t support negative lookahead in regular expressions"

def MSG_META : String :=
  "Safari doesn\x27t support metacharacters in regular expressions"

/-- `validateRegExp`. -/
def validateRegExp (regExp : String) : Except String Unit :=
  let s := regExp.toList
  if hasBraceQuant s then .error MSG_BRACES
  else if hasUnescapedPipe s then .error MSG_PIPE
  else if hasNonAscii s then .error MSG_NON_ASCII
  else if hasNegLookahead s then .error MSG_LOOKAHEAD
  else if hasBadMeta s then .error MSG_META
  else .ok ()

/-! ### `parseRuleDomain` -/

def isAlnumChar (c : Char) : Bool :=
  ('a' ≤ c && c ≤ 'z') || ('A' ≤ c && c ≤ 'Z') || ('0' ≤ c && c ≤ '9')

def isDomainMidChar (c : Char) : Bool :=
  isAlnumChar c || c = '-' || c = '.'

def isTldChar (c : Char) : Bool :=
  ('a' ≤ c && c ≤ 'z') || ('A' ≤ c && c ≤ 'Z') || c = '-'

/-- Whole-string match of
`^[a-zA-Z0-9][a-zA-Z0-9-.]*[a-zA-Z0-9]\.[a-zA-Z-]{2,}$`.  Since the
trailing class `[a-zA-Z-]` excludes `.`, a match (if any) must split the
string at its last dot; this scan checks exactly that decomposition. -/
def domainRegexMatch (s : List Char) : Bool :=
  let revs := s.reverse
  let tldRev := revs.takeWhile (fun c => c ≠ '.')
  match revs.drop tldRev.length with
  | '.' :: frontRev =>
    let front := frontRev.reverse
    let tld := tldRev.reverse
    decide (2 ≤ tld.length) && tld.all isTldChar &&
      (match front with
       | [] => false
       | [_] => false
       | c0 :: rest =>
         isAlnumChar c0 &&
           (match rest.getLast? with
            | some cl => isAlnumChar cl
            | none => false) &&
           rest.dropLast.all isDomainMidChar)
  | _ => false

/-- `parseRuleDomain`: returns the parsed `(domain, path)` or `none`.  The
source's `startIndex === -1` test can never fire (`startIndex` is always a
length or an index plus an offset), and the `try`/`catch` has no throwing
operation in the pure model. -/
def parseRuleDomain (toPuny : String → String) (ruleText : String) :
    Option (String × Option String) :=
  let s := ruleText.toList
  let startsWithList : List String :=
    ["http://www.", "https://www.", "http://", "https://", "||", "//"]
  let startIndex :=
    ((startsWithList.find? (fun st => strStartsWith ruleText st)).map
      String.length).getD 0
  let startIndex :=
    match subIdx "domain=".toList s with
    | some domainIndex =>
      if (subIdx ['$'] s).isSome then domainIndex + "domain=".length
      else startIndex
    | none => startIndex
  let symbolIndex : Option Nat :=
    match subIdxFrom ['/'] s startIndex with
    | some i => some i
    | none => subIdxFrom ['^'] s startIndex
  let domain :=
    match symbolIndex with
    | none => String.mk (s.drop startIndex)
    | some i => String.mk ((s.drop startIndex).take (i - startIndex))
  let path : Option String := symbolIndex.map (fun i => String.mk (s.drop i))
  if domainRegexMatch domain.toList then
    some (jsToLowerCase (toPuny domain), path)
  else
    none

/-! ### CSS and URL rule translation -/

/-- `convertCssFilterRule`. -/
def convertCssFilterRule (toPuny : String → String) (rule : AGRule) :
    Except String Entry :=
  if rule.isInjectRule then
    .error ("CSS-injection rule " ++ rule.ruleText ++ " cannot be converted")
  else if rule.extendedCss then
    .error ("Extended CSS rule " ++ rule.ruleText ++ " cannot be converted")
  else
    let result : Entry :=
      { trigger := {urlFilter := URL_FILTER_CSS_RULES},
        action := {type := "css-display-none", selector := some rule.cssSelector} }
    let result := setWhiteList rule result
    match addDomainOptions toPuny result.trigger rule with
    | .error e => .error e
    | .ok trigger => .ok {result with trigger := trigger}

/-- `validateUrlBlockingRule`.  JS `!rule.trigger["if-domain"]` is true
exactly for an absent key (a present array, even empty, is truthy). -/
def validateUrlBlockingRule (rule : Entry) : Except String Unit :=
  if rule.action.type = "block" ∧
      (rule.trigger.resourceType.getD []).contains "document" ∧
      rule.trigger.resourceType ≠ none ∧
      rule.trigger.ifDomain = none ∧
      (rule.trigger.loadType = none ∨
        ¬ (rule.trigger.loadType.getD []).contains "third-party") then
    .error "Document blocking rules are allowed only along with third-party or if-domain modifiers"
  else
    .ok ()

/-- Local predicate of `checkWhiteListExceptions`. -/
def isUrlBlockRule (r : AGRule) : Bool :=
  isSingleOption r options.URLBLOCK || isSingleOption r options.GENERICBLOCK

/-- Local predicate of `checkWhiteListExceptions`. -/
def isCssExceptionRule (r : AGRule) : Bool :=
  isSingleOption r options.GENERICHIDE || isSingleOption r options.ELEMHIDE

/-- `checkWhiteListExceptions`.  Note that in the rewriting branch the
source calls `writeDomainOptions([domain], [], trigger)`, which overwrites
`if-domain` but leaves a previously written `unless-domain` in place; the
`.error` case of that call is unreachable because `excluded` is empty. -/
def checkWhiteListExceptions (toPuny : String → String) (rule : AGRule)
    (result : Entry) : Entry :=
  if rule.whiteListRule then
    let documentRule := rule.isDocumentWhiteList
    if documentRule || isUrlBlockRule rule || isCssExceptionRule rule then
      let result :=
        if documentRule then
          {result with trigger := {result.trigger with resourceType := none}}
        else result
      match parseRuleDomain toPuny rule.urlRuleText with
      | some (domain, path) =>
        if path ≠ none ∧ path ≠ some "^" ∧ path ≠ some "/" then
          -- Non-trivial path: warn and keep the entry as is.
          result
        else
          match writeDomainOptions [domain] [] result.trigger with
          | .ok trigger =>
            {result with trigger :=
              {trigger with urlFilter := URL_FILTER_ANY_URL, resourceType := none}}
          | .error _ => result
      | none => result
    else result
  else result

/-- `convertUrlFilterRule`. -/
def convertUrlFilterRule (toPuny : String → String) (rule : AGRule) :
    Except String Entry :=
  if rule.isCsp then
    .error "CSP rules are not supported"
  else
    let urlFilter := createUrlFilterString rule
    match validateRegExp urlFilter with
    | .error e => .error e
    | .ok _ =>
      let result : Entry :=
        {trigger := {urlFilter := urlFilter}, action := {type := "block"}}
      let result := setWhiteList rule result
      match addResourceType rule result with
      | .error e => .error e
      | .ok result =>
        let trigger := addThirdParty result.trigger rule
        let trigger := addMatchCase trigger rule
        match addDomainOptions toPuny trigger rule with
        | .error e => .error e
        | .ok trigger =>
          let result := {result with trigger := trigger}
          let result := checkWhiteListExceptions toPuny rule result
          match validateUrlBlockingRule result with
          | .error e => .error e
          | .ok _ => .ok result

/-! ### Line-level conversion (`parseAGRule`, `convertAGRuleToCB`,
`convertAGRule`, `convertLine`) -/

/-- The non-rule test at the head of `parseAGRule`: JS
`ruleText === null || ruleText === '' || ruleText.indexOf('!') === 0 ||
ruleText.indexOf(' ') === 0 || ruleText.indexOf(' - ') > 0`. -/
def ignoredLine : Option String → Bool
  | none => true
  | some s =>
    s = "" || strStartsWith s "!" || strStartsWith s " " ||
      (match subIdx " - ".toList s.toList with
       | some n => decide (0 < n)
       | none => false)

/-- The error line pushed by `parseAGRule` when the builder returns null:
the caught exception is `Error('Cannot create rule from: ' + ruleText)`
and JS string conversion of an `Error` prepends `Error: `. -/
def createErrMsg (ruleText : Option String) : String :=
  optStr ruleText ++ "\r\n" ++ "Error creating rule from: " ++ optStr ruleText ++
    " cause:\nError: Cannot create rule from: " ++ optStr ruleText ++ "\r\n"

/-- `parseAGRule`: returns the parsed rule (or `none`) and the updated
errors sink.  `createRule` is the external
`adguard.rules.builder.createRule`. -/
def parseAGRule (createRule : String → Option AGRule) (ruleText : Option String)
    (errors : List String) : Option AGRule × List String :=
  if ignoredLine ruleText then (none, errors)
  else
    match createRule (ruleText.getD "") with
    | some agRule => (some agRule, errors)
    | none => (none, errors ++ [createErrMsg ruleText])

/-- `convertAGRuleToCB`: dispatch on the rule's dynamic class; a null rule
raises `Invalid argument rule`.  For the unsupported-class message the
source stringifies the rule object; the model uses its `ruleText`. -/
def convertAGRuleToCB (toPuny : String → String) (rule : Option AGRule) :
    Except String Entry :=
  match rule with
  | none => .error "Invalid argument rule"
  | some r =>
    match r.kind with
    | .css => convertCssFilterRule toPuny r
    | .url => convertUrlFilterRule toPuny r
    | .other => .error ("Rule is not supported: " ++ r.ruleText)

/-- The source text used in `convertAGRule` error messages: JS
`(rule && rule.ruleText) ? rule.ruleText : rule`, the object branch
stringifying to `[object Object]`. -/
def errSource (rule : AGRule) : String :=
  if rule.ruleText ≠ "" then rule.ruleText else "[object Object]"

/-- The error line pushed by `convertAGRule` for a conversion exception
`ex` (JS stringification of an `Error` prepends `Error: `). -/
def convErrMsg (rule : AGRule) (ex : String) : String :=
  "Error converting rule from: " ++ errSource rule ++ " cause:\nError: " ++
    ex ++ "\r\n"

/-- `convertAGRule`: converts one parsed rule, pushing an error line on
failure. -/
def convertAGRule (toPuny : String → String) (rule : AGRule)
    (errors : List String) : Option Entry × List String :=
  match convertAGRuleToCB toPuny (some rule) with
  | .ok item => (some item, errors)
  | .error ex => (none, errors ++ [convErrMsg rule ex])

/-- The error line pushed by `convertLine` when conversion throws `ex`. -/
def lineErrMsg (ruleText : Option String) (ex : String) : String :=
  optStr ruleText ++ "\r\n" ++ "Error converting rule from: " ++
    optStr ruleText ++ " cause:\nError: " ++ ex ++ "\r\n"

/-- `convertLine`: converts one rule text, returning the entry (or `null`)
and the updated errors sink. -/
def convertLine (toPuny : String → String) (createRule : String → Option AGRule)
    (ruleText : Option String) (errors : List String) :
    Option Entry × List String :=
  let (agRule, errors) := parseAGRule createRule ruleText errors
  match convertAGRuleToCB toPuny agRule with
  | .ok item => (some item, errors)
  | .error ex => (none, errors ++ [lineErrMsg ruleText ex])

/-! ### Post-processing: wildcards, CSS exceptions, compaction -/

/-- `addWildcard` inside `applyDomainWildcards` (absent or empty lists are
left untouched; mapping over the empty list models that no-op). -/
def addWildcard : Option (List String) → Option (List String)
  | none => none
  | some ds => some (ds.map (fun d => "*" ++ d))

/-- `applyDomainWildcards`. -/
def applyDomainWildcards (rules : List Entry) : List Entry :=
  rules.map (fun rule =>
    {rule with trigger :=
      {rule.trigger with
        ifDomain := addWildcard rule.trigger.ifDomain,
        unlessDomain := addWildcard rule.trigger.unlessDomain}})

/-- The grouping key of `arrayToMap(·, 'action', 'selector')`.  Entries in
the CSS pipeline always carry a selector. -/
def selKey (e : Entry) : String :=
  e.action.selector.getD ""

/-- `pushExceptionDomain`: adds an exception domain to a hide entry unless
the entry's permitted domains make it redundant (the applicability test is
JS `domain.indexOf(permitted) >= 0`). -/
def pushExceptionDomain (domain : String) (rule : Entry) : Entry :=
  let permittedDomains := rule.trigger.ifDomain.getD []
  if rule.trigger.ifDomain.isSome ∧ permittedDomains ≠ [] ∧
      ¬ permittedDomains.any (fun permitted =>
          containsSub domain.toList permitted.toList) then
    rule
  else
    {rule with trigger :=
      {rule.trigger with
        unlessDomain := some (rule.trigger.unlessDomain.getD [] ++ [domain])}}

/-- Effect of one exception entry on one hide entry inside the iterator of
`applyCssExceptions`: every domain of the exception's `if-domain` is
pushed in order. -/
def applyExceptionToRule (rule exc : Entry) : Entry :=
  match exc.trigger.ifDomain with
  | some (d :: ds) => (d :: ds).foldl (fun r dom => pushExceptionDomain dom r) rule
  | _ => rule

/-- Both domain scopes present and non-empty: the drop test at the end of
`applyCssExceptions` (JS truthiness plus `length > 0`). -/
def bothScopes (e : Entry) : Bool :=
  !(e.trigger.ifDomain.getD []).isEmpty &&
    !(e.trigger.unlessDomain.getD []).isEmpty

/-- `applyCssExceptions`.  The source builds selector-keyed maps over
shared mutable entry objects and iterates exceptions on the outside; since
a hide entry is mutated exactly by the exception entries sharing its
selector, in their order of appearance in `cssExceptions`, the per-entry
fold below computes the same final entries (the map iteration order across
distinct selectors only permutes updates of unrelated entries).  Entries
that end up with both scopes are dropped. -/
def applyCssExceptions (cssBlocking cssExceptions : List Entry) : List Entry :=
  let mutated := cssBlocking.map (fun rule =>
    (cssExceptions.filter (fun exc => selKey exc = selKey rule)).foldl
      applyExceptionToRule rule)
  mutated.filter (fun r => !bothScopes r)

/-- The combined wide entry built by `addWideRule`. -/
def wideEntry (selector : String) : Entry :=
  { trigger := {urlFilter := URL_FILTER_CSS_RULES},
    action := {type := "css-display-none", selector := some selector} }

/-- JS `wideSelectors.join(', ')`. -/
def joinSels : List String → String
  | [] => ""
  | [s] => s
  | s :: rest => s ++ ", " ++ joinSels rest

/-- `addWideRule`: flush the accumulated selectors as one combined entry
(nothing to add for an empty batch). -/
def addWideRule (wideSelectors : List String) (cssBlockingWide : List Entry) :
    List Entry :=
  if wideSelectors.isEmpty then cssBlockingWide
  else cssBlockingWide ++ [wideEntry (joinSels wideSelectors)]

/-- Result shape of `compactCssRules`. -/
structure CompactResult where
  cssBlockingWide : List Entry
  cssBlockingDomainSensitive : List Entry
  cssBlockingGenericDomainSensitive : List Entry
deriving DecidableEq, Repr

/-- Loop state of `compactCssRules`. -/
structure CompactAcc where
  wide : List Entry := []
  domainSensitive : List Entry := []
  genericDomainSensitive : List Entry := []
  wideSelectors : List String := []
deriving DecidableEq, Repr

/-- One iteration of the `compactCssRules` loop (JS truthiness of
`rule.trigger['if-domain']` is key presence). -/
def compactStep (acc : CompactAcc) (rule : Entry) : CompactAcc :=
  if rule.trigger.ifDomain.isSome then
    {acc with domainSensitive := acc.domainSensitive ++ [rule]}
  else if rule.trigger.unlessDomain.isSome then
    {acc with genericDomainSensitive := acc.genericDomainSensitive ++ [rule]}
  else
    let wideSelectors := acc.wideSelectors ++ [selKey rule]
    if MAX_SELECTORS_PER_WIDE_RULE ≤ wideSelectors.length then
      {acc with wide := addWideRule wideSelectors acc.wide, wideSelectors := []}
    else
      {acc with wideSelectors := wideSelectors}

/-- `compactCssRules`. -/
def compactCssRules (cssBlocking : List Entry) : CompactResult :=
  let acc := cssBlocking.foldl compactStep {}
  { cssBlockingWide := addWideRule acc.wideSelectors acc.wide,
    cssBlockingDomainSensitive := acc.domainSensitive,
    cssBlockingGenericDomainSensitive := acc.genericDomainSensitive }

/-! ### The pipeline (`convertLines`) -/

/-- The category buckets (plus errors) accumulated by `convertLines`. -/
structure ContentBlocker where
  cssBlockingWide : List Entry := []
  cssBlockingGenericDomainSensitive : List Entry := []
  cssBlockingGenericHideExceptions : List Entry := []
  cssBlockingDomainSensitive : List Entry := []
  cssElemhide : List Entry := []
  urlBlocking : List Entry := []
  other : List Entry := []
  important : List Entry := []
  importantExceptions : List Entry := []
  documentExceptions : List Entry := []
  errors : List String := []
deriving DecidableEq, Repr

/-- Loop state of the translation loop: the buckets plus the temporary
`cssBlocking` / `cssExceptions` lists. -/
structure PipeState where
  cb : ContentBlocker := {}
  cssBlocking : List Entry := []
  cssExceptions : List Entry := []
deriving DecidableEq, Repr

/-- Accumulator of the first (`partition`) loop of `convertLines`. -/
structure ParsedInput where
  agRules : List AGRule := []
  badFilterExceptions : List String := []
  errors : List String := []

/-- The message text pushed when a rule object with a falsy `ruleText` is
handed to `parseAGRule` by the dispatch in `convertLines` (the host raises
a `TypeError` whose exact text is engine specific; only the presence of an
error line is observable downstream). -/
def objParseErrMsg : String :=
  "[object Object]\r\nError creating rule from: [object Object] cause:\nTypeError\r\n"

/-- One iteration of the first loop of `convertLines`: dispatch on
`rules[j] !== null && rules[j].ruleText`, then partition into `agRules`
and `badFilterExceptions`. -/
def collectStep (createRule : String → Option AGRule) (acc : ParsedInput)
    (item : InputItem) : ParsedInput :=
  let parsed : Option AGRule × List String :=
    match item with
    | .rule r =>
      if r.ruleText ≠ "" then (some r, acc.errors)
      else (none, acc.errors ++ [objParseErrMsg])
    | .line s => parseAGRule createRule s acc.errors
  match parsed with
  | (some rule, errors) =>
    if rule.isBadFilter then
      {acc with badFilterExceptions := acc.badFilterExceptions ++ [rule.badFilter],
                errors := errors}
    else
      {acc with agRules := acc.agRules ++ [rule], errors := errors}
  | (none, errors) => {acc with errors := errors}

/-- The first loop of `convertLines`. -/
def collectRules (createRule : String → Option AGRule) (items : List InputItem) :
    ParsedInput :=
  items.foldl (collectStep createRule) {}

/-- JS truthiness of `item.action.selector` (plus the `!== ''` test). -/
def selNonEmpty : Option String → Bool
  | some s => s ≠ ""
  | none => false

/-- One iteration of the translation loop of `convertLines`: skip rules
suppressed by `$badfilter`, convert, and route the entry into its bucket.
The source's `item !== null && item !== ''` and
`item.action === null || item.action === ''` guards are vacuous here: a
converted entry always is an object with an action. -/
def cbStep (toPuny : String → String) (badFilterExceptions : List String)
    (st : PipeState) (agRule : AGRule) : PipeState :=
  if badFilterExceptions.contains agRule.ruleText then st
  else
    match convertAGRule toPuny agRule st.cb.errors with
    | (none, errors) => {st with cb := {st.cb with errors := errors}}
    | (some item, errors) =>
      let cb := {st.cb with errors := errors}
      if item.action.type = "block" then
        if agRule.isImportant then
          {st with cb := {cb with important := cb.important ++ [item]}}
        else
          {st with cb := {cb with urlBlocking := cb.urlBlocking ++ [item]}}
      else if item.action.type = "css-display-none" then
        {st with cssBlocking := st.cssBlocking ++ [item], cb := cb}
      else if item.action.type = "ignore-previous-rules" &&
          selNonEmpty item.action.selector then
        {st with cssExceptions := st.cssExceptions ++ [item], cb := cb}
      else if item.action.type = "ignore-previous-rules" &&
          isSingleOption agRule options.GENERICHIDE then
        {st with cb := {cb with cssBlockingGenericHideExceptions := cb.cssBlockingGenericHideExceptions ++ [item]}}
      else if item.action.type = "ignore-previous-rules" &&
          isSingleOption agRule options.ELEMHIDE then
        {st with cb := {cb with cssElemhide := cb.cssElemhide ++ [item]}}
      else
        if agRule.isImportant then
          {st with cb := {cb with importantExceptions := cb.importantExceptions ++ [item]}}
        else if agRule.isDocumentWhiteList then
          {st with cb := {cb with documentExceptions := cb.documentExceptions ++ [item]}}
        else
          {st with cb := {cb with other := cb.other ++ [item]}}

/-- The tail of `convertLines` after the translation loop: apply CSS
exceptions, compact, and (unless `optimize`) keep the wide bucket.  When
`optimize` is set the wide bucket keeps its initial empty value. -/
def pipeFinish (optimize : Bool) (st : PipeState) : ContentBlocker :=
  let cssBlocking := applyCssExceptions st.cssBlocking st.cssExceptions
  let cssCompact := compactCssRules cssBlocking
  {st.cb with
    cssBlockingWide :=
      if optimize then st.cb.cssBlockingWide else cssCompact.cssBlockingWide,
    cssBlockingGenericDomainSensitive :=
      cssCompact.cssBlockingGenericDomainSensitive,
    cssBlockingDomainSensitive := cssCompact.cssBlockingDomainSensitive}

/-- `convertLines`. -/
def convertLines (toPuny : String → String)
    (createRule : String → Option AGRule) (items : List InputItem)
    (optimize : Bool) : ContentBlocker :=
  let parsed := collectRules createRule items
  let st : PipeState :=
    (parsed.agRules.foldl (cbStep toPuny parsed.badFilterExceptions)
      {cb := {errors := parsed.errors}})
  pipeFinish optimize st

/-! ### Finalization (`createConversionResult`, `convertArray`) -/

/-- The result object of `convertArray`; `converted` is the entry list
that `JSON.stringify(converted, null, "\t")` serializes. -/
structure ConversionResult where
  totalConvertedCount : Nat
  convertedCount : Nat
  errorsCount : Nat
  overLimit : Bool
  converted : List Entry
deriving DecidableEq, Repr

/-- The limit error line. -/
def limitMsg (limit : Int) : String :=
  toString limit ++ " limit is achieved. Next rules will be ignored."

/-- `createConversionResult`.  JS `limit && limit > 0 && length > limit`
reduces to `0 < limit ∧ limit < length`. -/
def createConversionResult (contentBlocker : ContentBlocker) (limit : Int) :
    ConversionResult :=
  let converted : List Entry :=
    (((((((((([] : List Entry) ++ contentBlocker.cssBlockingWide)
      ++ contentBlocker.cssBlockingGenericDomainSensitive)
      ++ contentBlocker.cssBlockingGenericHideExceptions)
      ++ contentBlocker.cssBlockingDomainSensitive)
      ++ contentBlocker.cssElemhide)
      ++ contentBlocker.urlBlocking)
      ++ contentBlocker.other)
      ++ contentBlocker.important)
      ++ contentBlocker.importantExceptions)
      ++ contentBlocker.documentExceptions
  let convertedLength := converted.length
  let overLimit : Bool := decide (0 < limit ∧ limit < (converted.length : Int))
  let errors :=
    if overLimit then contentBlocker.errors ++ [limitMsg limit]
    else contentBlocker.errors
  let converted :=
    if overLimit then converted.take limit.toNat else converted
  let converted := applyDomainWildcards converted
  { totalConvertedCount := convertedLength,
    convertedCount := converted.length,
    errorsCount := errors.length,
    overLimit := overLimit,
    converted := converted }

/-- `convertArray`.  A null (`none`) or empty rules argument yields null;
the temporary mutation of the process-wide `regexConfiguration` only
affects the external rule engine and has no observable effect here. -/
def convertArray (toPuny : String → String)
    (createRule : String → Option AGRule) (rules : Option (List InputItem))
    (limit : Int) (optimize : Bool) : Option ConversionResult :=
  match rules with
  | none => none
  | some items =>
    if items.isEmpty then none
    else some (createConversionResult
      (convertLines toPuny createRule items optimize) limit)

/-! ### Auxiliary characterizations used by the claim theorems -/

/-- The parse result a `convertLines` input item contributes (ignoring the
error sink): the dispatch of the first loop of `convertLines` combined
with `parseAGRule`. -/
def itemRule (createRule : String → Option AGRule) : InputItem → Option AGRule
  | .rule r => if r.ruleText ≠ "" then some r else none
  | .line s => if ignoredLine s then none else createRule (s.getD "")

/-- Number of comma characters in a string. -/
def commaCount (s : String) : Nat :=
  s.toList.count ','

/-- Concrete rules used to instantiate universally quantified claim
theorems at witness inputs. -/
def trivialCreateRule : String → Option AGRule := fun _ => none

def adCssRule : AGRule :=
  { kind := .css, ruleText := "##.ad", cssSelector := ".ad" }

def domainCssRule : AGRule :=
  { kind := .css, ruleText := "example.com##.ad", cssSelector := ".ad",
    permittedDomains := some ["example.com"] }

def c3Entry : Entry :=
  { trigger := {urlFilter := ".*", ifDomain := some ["*example.com"]},
    action := {type := "css-display-none", selector := some ".ad"} }

def c3Res : ConversionResult :=
  { totalConvertedCount := 1, convertedCount := 1, errorsCount := 0,
    overLimit := false, converted := [c3Entry] }

/-- The ten category buckets concatenated in the fixed emission order. -/
def bucketSequence (cb : ContentBlocker) : List Entry :=
  cb.cssBlockingWide ++ cb.cssBlockingGenericDomainSensitive ++
    cb.cssBlockingGenericHideExceptions ++ cb.cssBlockingDomainSensitive ++
    cb.cssElemhide ++ cb.urlBlocking ++ cb.other ++ cb.important ++
    cb.importantExceptions ++ cb.documentExceptions

lemma createConversionResult_total (cb : ContentBlocker) (limit : Int) :
    (createConversionResult cb limit).totalConvertedCount =
      (bucketSequence cb).length := rfl

lemma createConversionResult_overLimit (cb : ContentBlocker) (limit : Int) :
    (createConversionResult cb limit).overLimit =
      decide (0 < limit ∧ limit < ((bucketSequence cb).length : Int)) := rfl

lemma createConversionResult_converted (cb : ContentBlocker) (limit : Int) :
    (createConversionResult cb limit).converted =
      applyDomainWildcards
        (if 0 < limit ∧ limit < ((bucketSequence cb).length : Int) then
          (bucketSequence cb).take limit.toNat
        else bucketSequence cb) := by
  simp only [createConversionResult, decide_eq_true_eq]
  rfl

lemma createConversionResult_count (cb : ContentBlocker) (limit : Int) :
    (createConversionResult cb limit).convertedCount =
      (createConversionResult cb limit).converted.length := rfl

lemma applyDomainWildcards_star (l : List Entry) (e : Entry)
    (h : e ∈ applyDomainWildcards l) :
    (∀ d ∈ e.trigger.ifDomain.getD [], ∃ rest, d = "*" ++ rest) ∧
    (∀ d ∈ e.trigger.unlessDomain.getD [], ∃ rest, d = "*" ++ rest) := by
  simp only [applyDomainWildcards, List.mem_map] at h
  obtain ⟨a, -, rfl⟩ := h
  constructor
  · intro d hd
    cases hif : a.trigger.ifDomain with
    | none => simp [hif, addWildcard] at hd
    | some ds =>
      simp only [hif, addWildcard, Option.getD_some, List.mem_map] at hd
      obtain ⟨x, -, rfl⟩ := hd
      exact ⟨x, rfl⟩
  · intro d hd
    cases hif : a.trigger.unlessDomain with
    | none => simp [hif, addWildcard] at hd
    | some ds =>
      simp only [hif, addWildcard, Option.getD_some, List.mem_map] at hd
      obtain ⟨x, -, rfl⟩ := hd
      exact ⟨x, rfl⟩

/-! ### Claims -/

/-- C9: `convertArray` returns null (`none`) for a null or empty `rules`
argument, and produces a result object for every non-empty input
sequence. -/
theorem claim_C9 (toPuny : String → String)
    (createRule : String → Option AGRule) (limit : Int) (optimize : Bool) :
    convertArray toPuny createRule none limit optimize = none ∧
    convertArray toPuny createRule (some []) limit optimize = none ∧
    ∀ items : List InputItem, items.isEmpty = false →
      ∃ res, convertArray toPuny createRule (some items) limit optimize =
        some res := by
  refine ⟨rfl, rfl, fun items h =>
    ⟨createConversionResult (convertLines toPuny createRule items optimize)
      limit, ?_⟩⟩
  simp [convertArray, h]

/-- Witness for C9 at a concrete non-empty input. -/
theorem claim_C9_witness :
    ([InputItem.rule adCssRule].isEmpty = false) ∧
    ∃ res, convertArray id trivialCreateRule (some [InputItem.rule adCssRule])
      0 false = some res :=
  ⟨rfl, (claim_C9 id trivialCreateRule 0 false).2.2 [InputItem.rule adCssRule] rfl⟩

/-- C10: every line the parser ignores as a non-rule (null, empty, leading
`!`, leading space, or containing ` - ` after position 0) makes
`convertLine` return null and append an error line to the supplied sink:
the null parse result reaches `convertAGRuleToCB`, which raises
`Invalid argument rule`. -/
theorem claim_C10 (toPuny : String → String)
    (createRule : String → Option AGRule) (ruleText : Option String)
    (errors : List String) (h : ignoredLine ruleText = true) :
    convertLine toPuny createRule ruleText errors =
      (none, errors ++ [lineErrMsg ruleText "Invalid argument rule"]) := by
  simp [convertLine, parseAGRule, h, convertAGRuleToCB]

/-- Witness for C10 at a concrete comment line. -/
theorem claim_C10_witness :
    ignoredLine (some "! comment") = true ∧
    convertLine id trivialCreateRule (some "! comment") [] =
      (none, [lineErrMsg (some "! comment") "Invalid argument rule"]) :=
  ⟨by decide, claim_C10 id trivialCreateRule (some "! comment") [] (by decide)⟩

/-- C2: the `converted` output of `convertArray` is (the domain-wildcarded,
limit-truncated form of) the concatenation of the ten category buckets in
the fixed order `cssBlockingWide, cssBlockingGenericDomainSensitive,
cssBlockingGenericHideExceptions, cssBlockingDomainSensitive, cssElemhide,
urlBlocking, other, important, importantExceptions, documentExceptions`,
for every input. -/
theorem claim_C2 (toPuny : String → String)
    (createRule : String → Option AGRule) (items : List InputItem)
    (limit : Int) (optimize : Bool) :
    (convertArray toPuny createRule (some items) limit optimize).map
        ConversionResult.converted =
      if items.isEmpty then none
      else
        let cb := convertLines toPuny createRule items optimize
        let sequence := cb.cssBlockingWide ++
          cb.cssBlockingGenericDomainSensitive ++
          cb.cssBlockingGenericHideExceptions ++
          cb.cssBlockingDomainSensitive ++ cb.cssElemhide ++ cb.urlBlocking ++
          cb.other ++ cb.important ++ cb.importantExceptions ++
          cb.documentExceptions
        some (applyDomainWildcards
          (if 0 < limit ∧ limit < (sequence.length : Int) then
            sequence.take limit.toNat
          else sequence)) := by
  by_cases h : items.isEmpty
  · simp [convertArray, h]
  · simp only [Bool.not_eq_true] at h
    simp [convertArray, h, createConversionResult]

/-- C3: after finalization every host string in `if-domain` and
`unless-domain` of every emitted entry begins with the `*` wildcard. -/
theorem claim_C3 (toPuny : String → String)
    (createRule : String → Option AGRule) (items : List InputItem)
    (limit : Int) (optimize : Bool) (res : ConversionResult)
    (h : convertArray toPuny createRule (some items) limit optimize = some res)
    (e : Entry) (he : e ∈ res.converted) :
    (∀ d ∈ e.trigger.ifDomain.getD [], ∃ rest, d = "*" ++ rest) ∧
    (∀ d ∈ e.trigger.unlessDomain.getD [], ∃ rest, d = "*" ++ rest) := by
  by_cases hne : items.isEmpty
  · simp [convertArray, hne] at h
  · simp only [Bool.not_eq_true] at hne
    simp only [convertArray, hne, Bool.false_eq_true, if_false,
      Option.some.injEq] at h
    subst h
    simp only [createConversionResult] at he
    exact applyDomainWildcards_star _ _ he

/-- Witness for C3 at a concrete input whose output has one
domain-scoped entry. -/
theorem claim_C3_witness :
    (convertArray id trivialCreateRule (some [InputItem.rule domainCssRule])
        0 false = some c3Res) ∧
    (c3Entry ∈ c3Res.converted) ∧
    ((∀ d ∈ c3Entry.trigger.ifDomain.getD [], ∃ rest, d = "*" ++ rest) ∧
     (∀ d ∈ c3Entry.trigger.unlessDomain.getD [], ∃ rest, d = "*" ++ rest)) :=
  ⟨by decide, by decide,
    claim_C3 id trivialCreateRule [InputItem.rule domainCssRule] 0 false c3Res
      (by decide) c3Entry (by decide)⟩

/-- C4: `totalConvertedCount` is the size of the concatenated sequence
before truncation, `convertedCount` the size of the emitted list after it,
`totalConvertedCount ≥ convertedCount` with equality iff `overLimit` is
false, and `overLimit` holds iff a positive limit was given and the
concatenated sequence exceeded it. -/
theorem claim_C4 (toPuny : String → String)
    (createRule : String → Option AGRule) (items : List InputItem)
    (limit : Int) (optimize : Bool) (res : ConversionResult)
    (h : convertArray toPuny createRule (some items) limit optimize = some res) :
    res.convertedCount ≤ res.totalConvertedCount ∧
    (res.convertedCount = res.totalConvertedCount ↔ res.overLimit = false) ∧
    (res.overLimit = true ↔
      0 < limit ∧ limit < (res.totalConvertedCount : Int)) ∧
    res.convertedCount = res.converted.length ∧
    res.totalConvertedCount =
      (bucketSequence (convertLines toPuny createRule items optimize)).length := by
  by_cases hne : items.isEmpty
  · simp [convertArray, hne] at h
  · simp only [Bool.not_eq_true] at hne
    simp only [convertArray, hne, Bool.false_eq_true, if_false,
      Option.some.injEq] at h
    subst h
    set cb := convertLines toPuny createRule items optimize with hcb
    have htot := createConversionResult_total cb limit
    have hover := createConversionResult_overLimit cb limit
    have hconv := createConversionResult_converted cb limit
    have hcnt := createConversionResult_count cb limit
    set n := (bucketSequence cb).length with hn
    by_cases hP : 0 < limit ∧ limit < (n : Int)
    · have hto : limit.toNat < n := by omega
      have hcnt2 : (createConversionResult cb limit).convertedCount =
          limit.toNat := by
        rw [hcnt, hconv, if_pos hP]
        simp [applyDomainWildcards, List.length_take]
        omega
      have hov2 : (createConversionResult cb limit).overLimit = true := by
        rw [hover]; exact decide_eq_true hP
      refine ⟨?_, ?_, ?_, hcnt, htot⟩
      · rw [hcnt2, htot]; omega
      · rw [hcnt2, htot, hov2]
        constructor
        · intro hEq; omega
        · intro hFalse; exact absurd hFalse (by simp)
      · rw [hov2, htot]
        exact ⟨fun _ => hP, fun _ => rfl⟩
    · have hov2 : (createConversionResult cb limit).overLimit = false := by
        rw [hover]; exact decide_eq_false hP
      have hcnt2 : (createConversionResult cb limit).convertedCount = n := by
        rw [hcnt, hconv, if_neg hP]
        simp [applyDomainWildcards]
      refine ⟨?_, ?_, ?_, hcnt, htot⟩
      · rw [hcnt2, htot]
      · rw [hcnt2, htot, hov2]; simp
      · rw [hov2, htot]
        simp only [Bool.false_eq_true, false_iff]
        exact hP

/-- Witness for C4 at a concrete input. -/
theorem claim_C4_witness :
    (convertArray id trivialCreateRule (some [InputItem.rule domainCssRule])
        0 false = some c3Res) ∧
    c3Res.convertedCount ≤ c3Res.totalConvertedCount ∧
    (c3Res.convertedCount = c3Res.totalConvertedCount ↔
      c3Res.overLimit = false) ∧
    (c3Res.overLimit = true ↔
      0 < (0 : Int) ∧ (0 : Int) < (c3Res.totalConvertedCount : Int)) :=
  ⟨by decide,
    (claim_C4 id trivialCreateRule [InputItem.rule domainCssRule] 0 false c3Res
      (by decide)).1,
    (claim_C4 id trivialCreateRule [InputItem.rule domainCssRule] 0 false c3Res
      (by decide)).2.1,
    (claim_C4 id trivialCreateRule [InputItem.rule domainCssRule] 0 false c3Res
      (by decide)).2.2.1⟩

/-! ### Pipeline lemmas -/

lemma cbStep_cssBlockingWide (toPuny : String → String) (bfs : List String)
    (st : PipeState) (r : AGRule) :
    (cbStep toPuny bfs st r).cb.cssBlockingWide = st.cb.cssBlockingWide := by
  unfold cbStep
  repeat' split
  all_goals rfl

lemma foldl_cbStep_cssBlockingWide (toPuny : String → String)
    (bfs : List String) :
    ∀ (l : List AGRule) (st : PipeState),
    (l.foldl (cbStep toPuny bfs) st).cb.cssBlockingWide =
      st.cb.cssBlockingWide := by
  intro l
  induction l with
  | nil => intro st; rfl
  | cons x xs ih =>
    intro st
    rw [List.foldl_cons, ih, cbStep_cssBlockingWide]

lemma mem_applyCssExceptions_not_both (b ex : List Entry) (e : Entry)
    (h : e ∈ applyCssExceptions b ex) : bothScopes e = false := by
  unfold applyCssExceptions at h
  simp only [List.mem_filter] at h
  simpa using h.2

lemma foldl_compactStep_ds :
    ∀ (l : List Entry) (acc : CompactAcc),
    (l.foldl compactStep acc).domainSensitive =
      acc.domainSensitive ++
        l.filter (fun r => r.trigger.ifDomain.isSome) := by
  intro l
  induction l with
  | nil => intro acc; simp
  | cons x xs ih =>
    intro acc
    rw [List.foldl_cons, ih, List.filter_cons]
    by_cases hx : x.trigger.ifDomain.isSome
    · simp [compactStep, hx]
    · simp only [hx, Bool.false_eq_true, if_false]
      by_cases hu : x.trigger.unlessDomain.isSome
      · simp [compactStep, hx, hu]
      · simp only [compactStep, hx, hu, Bool.false_eq_true, if_false]
        split <;> simp

lemma foldl_compactStep_gds :
    ∀ (l : List Entry) (acc : CompactAcc),
    (l.foldl compactStep acc).genericDomainSensitive =
      acc.genericDomainSensitive ++
        l.filter (fun r =>
          !r.trigger.ifDomain.isSome && r.trigger.unlessDomain.isSome) := by
  intro l
  induction l with
  | nil => intro acc; simp
  | cons x xs ih =>
    intro acc
    rw [List.foldl_cons, ih, List.filter_cons]
    by_cases hx : x.trigger.ifDomain.isSome
    · simp [compactStep, hx]
    · by_cases hu : x.trigger.unlessDomain.isSome
      · simp [compactStep, hx, hu]
      · simp only [hx, hu, Bool.not_true, Bool.not_false, Bool.and_false,
          Bool.false_eq_true, if_false]
        simp only [compactStep, hx, hu, Bool.false_eq_true, if_false]
        split <;> simp

lemma compact_fold_wide_inv (P : String → Prop) :
    ∀ (l : List Entry) (acc : CompactAcc),
    (∀ e ∈ acc.wide, ∃ sels, sels ≠ [] ∧
        sels.length ≤ MAX_SELECTORS_PER_WIDE_RULE ∧ (∀ x ∈ sels, P x) ∧
        e = wideEntry (joinSels sels)) →
    (∀ x ∈ acc.wideSelectors, P x) →
    acc.wideSelectors.length ≤ MAX_SELECTORS_PER_WIDE_RULE - 1 →
    (∀ r ∈ l, P (selKey r)) →
    (∀ e ∈ (l.foldl compactStep acc).wide, ∃ sels, sels ≠ [] ∧
        sels.length ≤ MAX_SELECTORS_PER_WIDE_RULE ∧ (∀ x ∈ sels, P x) ∧
        e = wideEntry (joinSels sels)) ∧
    (∀ x ∈ (l.foldl compactStep acc).wideSelectors, P x) ∧
    (l.foldl compactStep acc).wideSelectors.length ≤
      MAX_SELECTORS_PER_WIDE_RULE - 1 := by
  intro l
  induction l with
  | nil => intro acc h1 h2 h3 _; exact ⟨h1, h2, h3⟩
  | cons x xs ih =>
    intro acc h1 h2 h3 hl
    rw [List.foldl_cons]
    have hlx : P (selKey x) := hl x (List.mem_cons_self x xs)
    have hlxs : ∀ r ∈ xs, P (selKey r) := fun r hr => hl r (List.mem_cons_of_mem x hr)
    by_cases hx : x.trigger.ifDomain.isSome
    · exact ih _ (by simpa [compactStep, hx] using h1)
        (by simpa [compactStep, hx] using h2)
        (by simpa [compactStep, hx] using h3) hlxs
    · by_cases hu : x.trigger.unlessDomain.isSome
      · exact ih _ (by simpa [compactStep, hx, hu] using h1)
          (by simpa [compactStep, hx, hu] using h2)
          (by simpa [compactStep, hx, hu] using h3) hlxs
      · by_cases hflush :
          MAX_SELECTORS_PER_WIDE_RULE ≤ (acc.wideSelectors ++ [selKey x]).length
        · refine ih _ ?_ ?_ ?_ hlxs
          · intro e he
            simp only [compactStep, hx, hu, Bool.false_eq_true, if_false,
              hflush, if_true] at he
            unfold addWideRule at he
            have hne : (acc.wideSelectors ++ [selKey x]).isEmpty = false := by
              simp
            rw [hne] at he
            simp only [Bool.false_eq_true, if_false, List.mem_append,
              List.mem_singleton] at he
            rcases he with he | he
            · exact h1 e he
            · refine ⟨acc.wideSelectors ++ [selKey x], by simp, ?_, ?_, he⟩
              · simp only [MAX_SELECTORS_PER_WIDE_RULE] at h3 ⊢
                simp only [List.length_append, List.length_cons,
                  List.length_nil]
                omega
              · intro y hy
                rcases List.mem_append.mp hy with hy | hy
                · exact h2 y hy
                · rw [List.mem_singleton.mp hy]; exact hlx
          · intro y hy
            simp only [compactStep, hx, hu, Bool.false_eq_true, if_false,
              hflush, if_true] at hy
            simp at hy
          · simp only [compactStep, hx, hu, Bool.false_eq_true, if_false,
              hflush, if_true]
            simp [MAX_SELECTORS_PER_WIDE_RULE]
        · refine ih _ ?_ ?_ ?_ hlxs
          · intro e he
            simp only [compactStep, hx, hu, Bool.false_eq_true, if_false,
              hflush, if_false] at he
            exact h1 e he
          · intro y hy
            simp only [compactStep, hx, hu, Bool.false_eq_true, if_false,
              hflush, if_false] at hy
            rcases List.mem_append.mp hy with hy | hy
            · exact h2 y hy
            · rw [List.mem_singleton.mp hy]; exact hlx
          · simp only [compactStep, hx, hu, Bool.false_eq_true, if_false,
              hflush, if_false]
            simp only [MAX_SELECTORS_PER_WIDE_RULE] at hflush ⊢
            simp only [List.length_append, List.length_cons, List.length_nil]
            simp only [List.length_append, List.length_cons,
              List.length_nil] at hflush
            omega

lemma compact_wide_mem (l : List Entry) (e : Entry)
    (h : e ∈ (compactCssRules l).cssBlockingWide) :
    ∃ sels, sels ≠ [] ∧ sels.length ≤ MAX_SELECTORS_PER_WIDE_RULE ∧
      (∀ x ∈ sels, ∃ r ∈ l, x = selKey r) ∧
      e = wideEntry (joinSels sels) := by
  have hinv := compact_fold_wide_inv (fun x => ∃ r ∈ l, x = selKey r) l {}
    (by intro e he; simp at he) (by intro x hx; simp at hx)
    (by simp [MAX_SELECTORS_PER_WIDE_RULE]) (fun r hr => ⟨r, hr, rfl⟩)
  unfold compactCssRules at h
  simp only at h
  unfold addWideRule at h
  split at h
  · exact hinv.1 e h
  · rcases List.mem_append.mp h with he | he
    · exact hinv.1 e he
    · rename_i hne
      refine ⟨(l.foldl compactStep {}).wideSelectors, ?_, ?_, hinv.2.1,
        List.mem_singleton.mp he⟩
      · simpa using hne
      · have := hinv.2.2
        simp only [MAX_SELECTORS_PER_WIDE_RULE] at this ⊢
        omega

lemma compactCssRules_ds (l : List Entry) :
    (compactCssRules l).cssBlockingDomainSensitive =
      l.filter (fun r => r.trigger.ifDomain.isSome) := by
  unfold compactCssRules
  simp only
  rw [foldl_compactStep_ds]
  rfl

lemma compactCssRules_gds (l : List Entry) :
    (compactCssRules l).cssBlockingGenericDomainSensitive =
      l.filter (fun r =>
        !r.trigger.ifDomain.isSome && r.trigger.unlessDomain.isSome) := by
  unfold compactCssRules
  simp only
  rw [foldl_compactStep_gds]
  rfl

lemma bothScopes_wideEntry (s : String) : bothScopes (wideEntry s) = false := rfl

lemma addWildcard_isEmpty (o : Option (List String)) :
    ((addWildcard o).getD []).isEmpty = ((o).getD []).isEmpty := by
  cases o with
  | none => rfl
  | some ds => cases ds <;> rfl

/-! ### C1 -/

/-- A realistic document-whitelist rule carrying a restricted domain
(`@@||example.org^$document,domain=~foo.com`): `checkWhiteListExceptions`
writes `if-domain` for it without clearing the `unless-domain` produced by
`addDomainOptions`. -/
def docWhitelistRule : AGRule :=
  { kind := .url, ruleText := "@@||example.org^$document,domain=~foo.com",
    whiteListRule := true, isDocumentWhiteList := true,
    urlRuleText := "||example.org^", urlRegExpSource := some "example",
    restrictedDomains := some ["foo.com"] }

/-- C1 fails on the code: a concrete `convertArray` input whose emitted
entry carries a non-empty `if-domain` and a non-empty `unless-domain` at
the same time. -/
theorem claim_C1_counterexample :
    (convertArray id trivialCreateRule
        (some [InputItem.rule docWhitelistRule]) 0 false).map
      (fun res => res.converted.map
        (fun e => (e.trigger.ifDomain, e.trigger.unlessDomain))) =
    some [(some ["*example.org"], some ["*foo.com"])] := by decide

/-- C1 amended: domain-scope conflicts on a single rule do make
translation fail, and the invariant does hold for all entries of the three
CSS-hide buckets (exception application drops offenders and wide entries
carry no scopes), and is preserved by domain wildcarding; but entries of
the url-rule buckets rewritten by `checkWhiteListExceptions` can carry
both scopes, so the invariant is not universal. -/
theorem claim_C1_amended :
    (∀ (included excluded : List String) (trigger : Trigger),
        included ≠ [] → excluded ≠ [] →
        writeDomainOptions included excluded trigger =
          .error "Safari does not support both permitted and restricted domains") ∧
    (∀ (toPuny : String → String) (createRule : String → Option AGRule)
        (items : List InputItem) (optimize : Bool) (e : Entry),
        (e ∈ (convertLines toPuny createRule items optimize).cssBlockingWide ∨
         e ∈ (convertLines toPuny createRule items
                optimize).cssBlockingGenericDomainSensitive ∨
         e ∈ (convertLines toPuny createRule items
                optimize).cssBlockingDomainSensitive) →
        bothScopes e = false) ∧
    (∀ l : List Entry, (∀ a ∈ l, bothScopes a = false) →
        ∀ e ∈ applyDomainWildcards l, bothScopes e = false) := by
  refine ⟨?_, ?_, ?_⟩
  · intro included excluded trigger h1 h2
    simp [writeDomainOptions, h1, h2]
  · intro toPuny createRule items optimize e he
    simp only [convertLines, pipeFinish] at he
    rcases he with he | he | he
    · by_cases hopt : optimize
      · rw [if_pos hopt] at he
        rw [foldl_cbStep_cssBlockingWide] at he
        simp at he
      · rw [if_neg hopt] at he
        obtain ⟨sels, -, -, -, rfl⟩ := compact_wide_mem _ _ he
        exact bothScopes_wideEntry _
    · rw [compactCssRules_gds] at he
      simp only [List.mem_filter] at he
      exact mem_applyCssExceptions_not_both _ _ _ he.1
    · rw [compactCssRules_ds] at he
      simp only [List.mem_filter] at he
      exact mem_applyCssExceptions_not_both _ _ _ he.1
  · intro l hl e he
    simp only [applyDomainWildcards, List.mem_map] at he
    obtain ⟨a, ha, rfl⟩ := he
    have := hl a ha
    simp only [bothScopes] at this ⊢
    rw [addWildcard_isEmpty, addWildcard_isEmpty]
    exact this

/-- A scoped entry used to instantiate the wildcard-preservation part of
the amended C1. -/
def c1ScopedEntry : Entry :=
  { trigger := {urlFilter := "x", ifDomain := some ["a"]},
    action := {type := "block"} }

/-- Witness for the amended C1, instantiating all three parts at concrete
inputs. -/
theorem claim_C1_witness :
    (writeDomainOptions ["a"] ["b"] {urlFilter := "x"} =
      .error "Safari does not support both permitted and restricted domains") ∧
    bothScopes (wideEntry ".ad") = false ∧
    ∀ e ∈ applyDomainWildcards [c1ScopedEntry], bothScopes e = false :=
  ⟨claim_C1_amended.1 ["a"] ["b"] {urlFilter := "x"} (by decide) (by decide),
   claim_C1_amended.2.1 id trivialCreateRule [InputItem.rule adCssRule] false
     (wideEntry ".ad")
     (Or.inl (by
       have hb : (convertLines id trivialCreateRule [InputItem.rule adCssRule]
           false).cssBlockingWide = [wideEntry ".ad"] := by decide
       rw [hb]
       exact List.mem_singleton.mpr rfl)),
   claim_C1_amended.2.2 [c1ScopedEntry] (by decide)⟩

/-! ### C7 -/

lemma parseAGRule_fst (createRule : String → Option AGRule)
    (s : Option String) (errors : List String) :
    (parseAGRule createRule s errors).1 = itemRule createRule (.line s) := by
  by_cases hig : ignoredLine s
  · simp [parseAGRule, itemRule, hig]
  · simp only [Bool.not_eq_true] at hig
    simp only [parseAGRule, itemRule, hig, Bool.false_eq_true, if_false]
    cases createRule (s.getD "") <;> simp

lemma collectStep_agRules (createRule : String → Option AGRule)
    (acc : ParsedInput) (item : InputItem) :
    (collectStep createRule acc item).agRules =
      acc.agRules ++
        (match itemRule createRule item with
         | some r => if r.isBadFilter then [] else [r]
         | none => []) := by
  cases item with
  | rule r =>
    by_cases hr : r.ruleText = ""
    · simp [collectStep, itemRule, hr]
    · simp only [collectStep, itemRule, hr, ne_eq, not_false_iff, if_true]
      by_cases hb : r.isBadFilter <;> simp [hb]
  | line s =>
    have hfst := parseAGRule_fst createRule s acc.errors
    rcases hp : parseAGRule createRule s acc.errors with ⟨or, errs⟩
    rw [hp] at hfst
    simp only at hfst
    unfold collectStep
    simp only [hp]
    rw [← hfst]
    cases or with
    | none => simp
    | some r => by_cases hb : r.isBadFilter <;> simp [hb]

lemma collectStep_badFilters (createRule : String → Option AGRule)
    (acc : ParsedInput) (item : InputItem) :
    (collectStep createRule acc item).badFilterExceptions =
      acc.badFilterExceptions ++
        (match itemRule createRule item with
         | some r => if r.isBadFilter then [r.badFilter] else []
         | none => []) := by
  cases item with
  | rule r =>
    by_cases hr : r.ruleText = ""
    · simp [collectStep, itemRule, hr]
    · simp only [collectStep, itemRule, hr, ne_eq, not_false_iff, if_true]
      by_cases hb : r.isBadFilter <;> simp [hb]
  | line s =>
    have hfst := parseAGRule_fst createRule s acc.errors
    rcases hp : parseAGRule createRule s acc.errors with ⟨or, errs⟩
    rw [hp] at hfst
    simp only at hfst
    unfold collectStep
    simp only [hp]
    rw [← hfst]
    cases or with
    | none => simp
    | some r => by_cases hb : r.isBadFilter <;> simp [hb]

lemma foldl_collectStep_agRules (createRule : String → Option AGRule) :
    ∀ (items : List InputItem) (acc : ParsedInput),
    (items.foldl (collectStep createRule) acc).agRules =
      acc.agRules ++
        ((items.filterMap (itemRule createRule)).filter
          (fun r => !r.isBadFilter)) := by
  intro items
  induction items with
  | nil => intro acc; simp
  | cons x xs ih =>
    intro acc
    rw [List.foldl_cons, ih, collectStep_agRules]
    cases hx : itemRule createRule x with
    | none => simp [List.filterMap_cons, hx]
    | some r =>
      by_cases hb : r.isBadFilter <;>
        simp [List.filterMap_cons, hx, hb, List.filter_cons]

lemma foldl_collectStep_badFilters (createRule : String → Option AGRule) :
    ∀ (items : List InputItem) (acc : ParsedInput),
    (items.foldl (collectStep createRule) acc).badFilterExceptions =
      acc.badFilterExceptions ++
        (((items.filterMap (itemRule createRule)).filter
            (fun r => r.isBadFilter)).map AGRule.badFilter) := by
  intro items
  induction items with
  | nil => intro acc; simp
  | cons x xs ih =>
    intro acc
    rw [List.foldl_cons, ih, collectStep_badFilters]
    cases hx : itemRule createRule x with
    | none => simp [List.filterMap_cons, hx]
    | some r =>
      by_cases hb : r.isBadFilter <;>
        simp [List.filterMap_cons, hx, hb, List.filter_cons]

lemma foldl_cbStep_filter (toPuny : String → String) (bfs : List String) :
    ∀ (l : List AGRule) (st : PipeState),
    l.foldl (cbStep toPuny bfs) st =
      (l.filter (fun r => !(bfs.contains r.ruleText))).foldl
        (cbStep toPuny bfs) st := by
  intro l
  induction l with
  | nil => intro st; rfl
  | cons x xs ih =>
    intro st
    by_cases hb : bfs.contains x.ruleText
    · have hskip : cbStep toPuny bfs st x = st := by
        unfold cbStep; rw [if_pos hb]
      rw [List.foldl_cons, hskip, List.filter_cons]
      simp only [hb, Bool.not_true, Bool.false_eq_true, if_false]
      exact ih st
    · simp only [Bool.not_eq_true] at hb
      rw [List.foldl_cons, List.filter_cons]
      simp only [hb, Bool.not_false, if_true, List.foldl_cons]
      exact ih _

/-- C7: every `$badfilter` rule contributes its `badFilter` text to the
suppression set and is itself excluded from translation, and the whole
pipeline result equals the pipeline run with every rule whose `ruleText`
is in that set removed — so no suppressed rule contributes an entry to any
bucket, regardless of the relative order of the `$badfilter` rule and the
suppressed rule in the input. -/
theorem claim_C7 (toPuny : String → String)
    (createRule : String → Option AGRule) (items : List InputItem)
    (optimize : Bool) :
    (collectRules createRule items).agRules =
      ((items.filterMap (itemRule createRule)).filter
        (fun r => !r.isBadFilter)) ∧
    (collectRules createRule items).badFilterExceptions =
      (((items.filterMap (itemRule createRule)).filter
          (fun r => r.isBadFilter)).map AGRule.badFilter) ∧
    convertLines toPuny createRule items optimize =
      pipeFinish optimize
        (((collectRules createRule items).agRules.filter
            (fun r => !((collectRules createRule
              items).badFilterExceptions.contains r.ruleText))).foldl
          (cbStep toPuny (collectRules createRule items).badFilterExceptions)
          {cb := {errors := (collectRules createRule items).errors}}) := by
  refine ⟨?_, ?_, ?_⟩
  · have := foldl_collectStep_agRules createRule items {}
    simpa [collectRules] using this
  · have := foldl_collectStep_badFilters createRule items {}
    simpa [collectRules] using this
  · simp only [convertLines]
    rw [foldl_cbStep_filter]

/-! ### C8 -/

lemma commaCount_append (a b : String) :
    commaCount (a ++ b) = commaCount a + commaCount b := by
  simp [commaCount, String.toList, String.data_append, List.count_append]

lemma commaCount_joinSels :
    ∀ sels : List String, sels ≠ [] →
    commaCount (joinSels sels) + 1 = (sels.map commaCount).sum + sels.length := by
  intro sels
  induction sels with
  | nil => intro h; exact absurd rfl h
  | cons s rest ih =>
    intro _
    cases rest with
    | nil => simp [joinSels]
    | cons t ts =>
      have hrec := ih (by simp)
      simp only [joinSels] at hrec ⊢
      rw [commaCount_append, commaCount_append]
      have hsep : commaCount ", " = 1 := by decide
      simp only [hsep, List.map_cons, List.sum_cons, List.length_cons] at hrec ⊢
      omega

/-- A CSS rule whose single selector already contains 250 commas. -/
def commaSelectorRule : AGRule :=
  { kind := .css, ruleText := "##x",
    cssSelector := String.mk (List.replicate 250 ',') }

/-- C8 fails on the code: a wide CSS entry built from one selector that
itself contains commas has more than 249 commas (the batching bounds the
number of combined selectors, not the commas of the selector string). -/
theorem claim_C8_counterexample :
    ((convertLines id trivialCreateRule [InputItem.rule commaSelectorRule]
        false).cssBlockingWide.map
      (fun e => commaCount (e.action.selector.getD ""))) = [250] ∧
    ¬ (250 ≤ 249) := by
  constructor
  · decide
  · omega

/-- C8 amended: every wide CSS entry combines at most 250 selectors from
the insertion order, comma+space joined, with url-filter `.*` and the last
partial batch flushed; its selector therefore has at most 249 commas
beyond those contained in the individual selectors — in particular at most
249 commas when no individual selector contains a comma (but not in
general). -/
theorem claim_C8_amended (toPuny : String → String)
    (createRule : String → Option AGRule) (items : List InputItem)
    (optimize : Bool) (e : Entry)
    (h : e ∈ (convertLines toPuny createRule items optimize).cssBlockingWide) :
    e.trigger.urlFilter = URL_FILTER_CSS_RULES ∧
    e.action.type = "css-display-none" ∧
    ∃ sels, sels ≠ [] ∧ sels.length ≤ MAX_SELECTORS_PER_WIDE_RULE ∧
      e.action.selector = some (joinSels sels) ∧
      commaCount (joinSels sels) + 1 =
        (sels.map commaCount).sum + sels.length ∧
      ((∀ x ∈ sels, commaCount x = 0) →
        commaCount (joinSels sels) ≤ MAX_SELECTORS_PER_WIDE_RULE - 1) := by
  simp only [convertLines, pipeFinish] at h
  by_cases hopt : optimize
  · rw [if_pos hopt] at h
    rw [foldl_cbStep_cssBlockingWide] at h
    simp at h
  · rw [if_neg hopt] at h
    obtain ⟨sels, hne, hlen, -, rfl⟩ := compact_wide_mem _ _ h
    refine ⟨rfl, rfl, sels, hne, hlen, rfl, commaCount_joinSels sels hne, ?_⟩
    intro hzero
    have hsum : (sels.map commaCount).sum = 0 := by
      apply List.sum_eq_zero
      intro x hx
      obtain ⟨y, hy, rfl⟩ := List.mem_map.mp hx
      exact hzero y hy
    have := commaCount_joinSels sels hne
    rw [hsum] at this
    simp only [MAX_SELECTORS_PER_WIDE_RULE] at hlen ⊢
    omega

/-- Witness for the amended C8 at a concrete one-selector input. -/
theorem claim_C8_witness :
    (wideEntry ".ad" ∈ (convertLines id trivialCreateRule
        [InputItem.rule adCssRule] false).cssBlockingWide) ∧
    ((wideEntry ".ad").trigger.urlFilter = URL_FILTER_CSS_RULES ∧
     (wideEntry ".ad").action.type = "css-display-none" ∧
     ∃ sels, sels ≠ [] ∧ sels.length ≤ MAX_SELECTORS_PER_WIDE_RULE ∧
       (wideEntry ".ad").action.selector = some (joinSels sels) ∧
       commaCount (joinSels sels) + 1 =
         (sels.map commaCount).sum + sels.length ∧
       ((∀ x ∈ sels, commaCount x = 0) →
         commaCount (joinSels sels) ≤ MAX_SELECTORS_PER_WIDE_RULE - 1)) :=
  ⟨by
      have hb : (convertLines id trivialCreateRule [InputItem.rule adCssRule]
          false).cssBlockingWide = [wideEntry ".ad"] := by decide
      rw [hb]
      exact List.mem_singleton.mpr rfl,
   claim_C8_amended id trivialCreateRule [InputItem.rule adCssRule] false
     (wideEntry ".ad")
     (by
      have hb : (convertLines id trivialCreateRule [InputItem.rule adCssRule]
          false).cssBlockingWide = [wideEntry ".ad"] := by decide
      rw [hb]
      exact List.mem_singleton.mpr rfl)⟩

/-! ### C5 -/

lemma addThirdParty_unlessDomain (t : Trigger) (r : AGRule) :
    (addThirdParty t r).unlessDomain = t.unlessDomain := by
  unfold addThirdParty; split <;> rfl

lemma addMatchCase_unlessDomain (t : Trigger) (r : AGRule) :
    (addMatchCase t r).unlessDomain = t.unlessDomain := by
  unfold addMatchCase; split <;> rfl

lemma setWhiteList_trigger (r : AGRule) (e : Entry) :
    (setWhiteList r e).trigger = e.trigger := by
  unfold setWhiteList; split <;> rfl

lemma addResourceType_ok_unlessDomain (r : AGRule) (e eo : Entry)
    (h : addResourceType r e = .ok eo) :
    eo.trigger.unlessDomain = e.trigger.unlessDomain := by
  simp only [addResourceType] at h
  repeat' split at h
  all_goals
    first
    | exact Except.noConfusion h
    | (injection h with h; subst h; rfl)

lemma except_ok_of_toOption {ε α : Type} (x : Except ε α) (v : α)
    (h : x.toOption = some v) : x = .ok v := by
  cases x with
  | ok a => simp only [Except.toOption, Option.some.injEq] at h; rw [h]
  | error e => simp [Except.toOption] at h

/-- C5 fails on the code in two points, exhibited at the concrete
document-whitelist rule `docWhitelistRule`: the rewritten entry's
`url-filter` is `URL_FILTER_ANY_URL` (the string `^[htpsw]+:\/\/`, with a
`+`), not the claimed `^[htpsw]:\/\/`, and `unless-domain` is not
cleared — the restricted domain written by `addDomainOptions` stays. -/
theorem claim_C5_counterexample :
    (convertUrlFilterRule id docWhitelistRule).toOption.map
        (fun e => (e.trigger.urlFilter, e.trigger.unlessDomain,
          e.trigger.ifDomain)) =
      some (URL_FILTER_ANY_URL, some ["foo.com"], some ["example.org"]) ∧
    URL_FILTER_ANY_URL ≠ "^[htpsw]:\\/\\/" ∧
    docWhitelistRule.whiteListRule = true ∧
    docWhitelistRule.isDocumentWhiteList = true ∧
    parseRuleDomain id docWhitelistRule.urlRuleText =
      some ("example.org", some "^") := by
  refine ⟨by decide, by decide, rfl, rfl, by decide⟩

lemma writeDomainOptions_single (d : String) (t : Trigger) :
    writeDomainOptions [d] [] t = .ok {t with ifDomain := some [d]} := by
  simp [writeDomainOptions]

/-- C5 amended: for a whitelist url rule that triggers the
whitelist-exception rewrite with a parsed domain and a trivial path, the
resulting entry has `if-domain = [domain]`, `url-filter` equal to
`URL_FILTER_ANY_URL` (which is `^[htpsw]+:\/\/`, not `^[htpsw]:\/\/`), no
`resource-type` key — but `unless-domain` is not cleared: it keeps
whatever `addDomainOptions` wrote from the rule's restricted domains. -/
theorem claim_C5_amended (toPuny : String → String) (rule : AGRule)
    (e : Entry) (hwl : rule.whiteListRule = true)
    (htrig : (rule.isDocumentWhiteList || isUrlBlockRule rule ||
      isCssExceptionRule rule) = true)
    (domain : String) (path : Option String)
    (hparse : parseRuleDomain toPuny rule.urlRuleText = some (domain, path))
    (hpath : path = none ∨ path = some "^" ∨ path = some "/")
    (hok : convertUrlFilterRule toPuny rule = .ok e) :
    e.trigger.ifDomain = some [domain] ∧
    e.trigger.urlFilter = URL_FILTER_ANY_URL ∧
    e.trigger.resourceType = none ∧
    e.trigger.unlessDomain =
      (if (parseDomains toPuny rule).2 = [] then none
       else some (parseDomains toPuny rule).2) := by
  simp only [convertUrlFilterRule] at hok
  split at hok
  · exact absurd hok (by simp)
  · split at hok
    · exact absurd hok (by simp)
    · split at hok
      · exact absurd hok (by simp)
      · rename_i res1 hart
        split at hok
        · exact absurd hok (by simp)
        · rename_i trig2 hado
          split at hok
          · exact absurd hok (by simp)
          · simp only [Except.ok.injEq] at hok
            subst hok
            -- The unless-domain carried into the rewrite.
            have hud : trig2.unlessDomain =
                (if (parseDomains toPuny rule).2 = [] then none
                 else some (parseDomains toPuny rule).2) := by
              rcases hpd : parseDomains toPuny rule with ⟨inc, exc⟩
              simp only [addDomainOptions, hpd] at hado
              unfold writeDomainOptions at hado
              split at hado
              · exact absurd hado (by simp)
              · simp only [Except.ok.injEq] at hado
                subst hado
                have hbase :
                    (addMatchCase (addThirdParty res1.trigger rule)
                      rule).unlessDomain = none := by
                  rw [addMatchCase_unlessDomain, addThirdParty_unlessDomain,
                    addResourceType_ok_unlessDomain rule _ res1 hart,
                    setWhiteList_trigger]
                by_cases hexc : exc = []
                · by_cases hinc : inc = [] <;>
                    simp [hexc, hinc, hpd, hbase]
                · simp [hexc, hpd]
            have hcond : ¬(path ≠ none ∧ path ≠ some "^" ∧
                path ≠ some "/") := by
              rcases hpath with h | h | h <;> simp [h]
            unfold checkWhiteListExceptions
            simp only [hwl, if_true, htrig, hparse]
            rw [if_neg hcond]
            rw [writeDomainOptions_single]
            refine ⟨rfl, rfl, rfl, ?_⟩
            by_cases hdw : rule.isDocumentWhiteList = true
            · rw [if_pos hdw]
              exact hud
            · rw [if_neg hdw]
              exact hud

/-- The entry the converter actually produces for `docWhitelistRule`. -/
def c5OkEntry : Entry :=
  { trigger := { urlFilter := URL_FILTER_ANY_URL,
                 ifDomain := some ["example.org"],
                 unlessDomain := some ["foo.com"] },
    action := { type := "ignore-previous-rules" } }

/-- Witness for the amended C5 at the concrete document-whitelist rule. -/
theorem claim_C5_witness :
    (parseRuleDomain id docWhitelistRule.urlRuleText =
      some ("example.org", some "^")) ∧
    (c5OkEntry.trigger.ifDomain = some ["example.org"] ∧
     c5OkEntry.trigger.urlFilter = URL_FILTER_ANY_URL ∧
     c5OkEntry.trigger.resourceType = none ∧
     c5OkEntry.trigger.unlessDomain =
       (if (parseDomains id docWhitelistRule).2 = [] then none
        else some (parseDomains id docWhitelistRule).2)) :=
  ⟨by decide,
    claim_C5_amended id docWhitelistRule c5OkEntry rfl (by decide)
      "example.org" (some "^") (by decide) (Or.inr (Or.inl rfl))
      (except_ok_of_toOption _ _ (by decide))⟩

/-! ### C6 -/

lemma regexFail_pipeline (toPuny : String → String) (rule : AGRule)
    (bfs : List String) (st : PipeState) (msg : String)
    (hkind : rule.kind = .url) (hcsp : rule.isCsp = false)
    (hval : validateRegExp (createUrlFilterString rule) = .error msg) :
    convertUrlFilterRule toPuny rule = .error msg ∧
    convertAGRule toPuny rule st.cb.errors =
      (none, st.cb.errors ++ [convErrMsg rule msg]) ∧
    (bfs.contains rule.ruleText = false →
      cbStep toPuny bfs st rule =
        {st with cb :=
          {st.cb with errors := st.cb.errors ++ [convErrMsg rule msg]}}) := by
  have hcv : convertUrlFilterRule toPuny rule = .error msg := by
    unfold convertUrlFilterRule
    simp only [hcsp, Bool.false_eq_true, if_false, hval]
  have hcb : convertAGRuleToCB toPuny (some rule) = .error msg := by
    simp only [convertAGRuleToCB, hkind, hcv]
  have hca : convertAGRule toPuny rule st.cb.errors =
      (none, st.cb.errors ++ [convErrMsg rule msg]) := by
    unfold convertAGRule
    rw [hcb]
  refine ⟨hcv, hca, fun hbfs => ?_⟩
  unfold cbStep
  rw [if_neg (by rw [hbfs]; simp), hca]

/-- C6: a url rule (that reaches regex validation, i.e. is not a CSP rule
and is not `$badfilter`-suppressed) whose constructed url-filter matches
any of the five forbidden patterns makes `convertUrlFilterRule` raise a
conversion error whose reason is the message of the first matching
pattern; the pipeline step records the wrapped message in the errors
sequence and leaves every category bucket (and the temporary CSS lists)
unchanged, so no entry for that rule is emitted. -/
theorem claim_C6 (toPuny : String → String) (rule : AGRule)
    (bfs : List String) (st : PipeState) (hkind : rule.kind = .url)
    (hcsp : rule.isCsp = false)
    (hmatch :
      hasBraceQuant (createUrlFilterString rule).toList = true ∨
      hasUnescapedPipe (createUrlFilterString rule).toList = true ∨
      hasNonAscii (createUrlFilterString rule).toList = true ∨
      hasNegLookahead (createUrlFilterString rule).toList = true ∨
      hasBadMeta (createUrlFilterString rule).toList = true)
    (hbfs : bfs.contains rule.ruleText = false) :
    ∃ msg, validateRegExp (createUrlFilterString rule) = .error msg ∧
      msg ∈ [MSG_BRACES, MSG_PIPE, MSG_NON_ASCII, MSG_LOOKAHEAD, MSG_META] ∧
      (hasBraceQuant (createUrlFilterString rule).toList = true →
        msg = MSG_BRACES) ∧
      (hasBraceQuant (createUrlFilterString rule).toList = false →
        hasUnescapedPipe (createUrlFilterString rule).toList = true →
        msg = MSG_PIPE) ∧
      (hasBraceQuant (createUrlFilterString rule).toList = false →
        hasUnescapedPipe (createUrlFilterString rule).toList = false →
        hasNonAscii (createUrlFilterString rule).toList = true →
        msg = MSG_NON_ASCII) ∧
      (hasBraceQuant (createUrlFilterString rule).toList = false →
        hasUnescapedPipe (createUrlFilterString rule).toList = false →
        hasNonAscii (createUrlFilterString rule).toList = false →
        hasNegLookahead (createUrlFilterString rule).toList = true →
        msg = MSG_LOOKAHEAD) ∧
      (hasBraceQuant (createUrlFilterString rule).toList = false →
        hasUnescapedPipe (createUrlFilterString rule).toList = false →
        hasNonAscii (createUrlFilterString rule).toList = false →
        hasNegLookahead (createUrlFilterString rule).toList = false →
        hasBadMeta (createUrlFilterString rule).toList = true →
        msg = MSG_META) ∧
      convertUrlFilterRule toPuny rule = .error msg ∧
      convertAGRule toPuny rule st.cb.errors =
        (none, st.cb.errors ++ [convErrMsg rule msg]) ∧
      cbStep toPuny bfs st rule =
        {st with cb :=
          {st.cb with errors := st.cb.errors ++ [convErrMsg rule msg]}} := by
  cases h1 : hasBraceQuant (createUrlFilterString rule).toList with
  | true =>
    have hval : validateRegExp (createUrlFilterString rule) =
        .error MSG_BRACES := by
      unfold validateRegExp
      simp only [h1, if_true]
    obtain ⟨hc1, hc2, hc3⟩ :=
      regexFail_pipeline toPuny rule bfs st MSG_BRACES hkind hcsp hval
    exact ⟨MSG_BRACES, hval, by simp, fun _ => rfl,
      fun hf _ => absurd hf (by simp),
      fun hf _ _ => absurd hf (by simp),
      fun hf _ _ _ => absurd hf (by simp),
      fun hf _ _ _ _ => absurd hf (by simp),
      hc1, hc2, hc3 hbfs⟩
  | false =>
    cases h2 : hasUnescapedPipe (createUrlFilterString rule).toList with
    | true =>
      have hval : validateRegExp (createUrlFilterString rule) =
          .error MSG_PIPE := by
        unfold validateRegExp
        simp only [h1, h2, Bool.false_eq_true, if_false, if_true]
      obtain ⟨hc1, hc2, hc3⟩ :=
        regexFail_pipeline toPuny rule bfs st MSG_PIPE hkind hcsp hval
      exact ⟨MSG_PIPE, hval, by simp,
        fun hb => absurd hb (by simp),
        fun _ _ => rfl,
        fun _ hp _ => absurd hp (by simp),
        fun _ hp _ _ => absurd hp (by simp),
        fun _ hp _ _ _ => absurd hp (by simp),
        hc1, hc2, hc3 hbfs⟩
    | false =>
      cases h3 : hasNonAscii (createUrlFilterString rule).toList with
      | true =>
        have hval : validateRegExp (createUrlFilterString rule) =
            .error MSG_NON_ASCII := by
          unfold validateRegExp
          simp only [h1, h2, h3, Bool.false_eq_true, if_false, if_true]
        obtain ⟨hc1, hc2, hc3⟩ :=
          regexFail_pipeline toPuny rule bfs st MSG_NON_ASCII hkind hcsp hval
        exact ⟨MSG_NON_ASCII, hval, by simp,
          fun hb => absurd hb (by simp),
          fun _ hp => absurd hp (by simp),
          fun _ _ _ => rfl,
          fun _ _ ha _ => absurd ha (by simp),
          fun _ _ ha _ _ => absurd ha (by simp),
          hc1, hc2, hc3 hbfs⟩
      | false =>
        cases h4 : hasNegLookahead (createUrlFilterString rule).toList with
        | true =>
          have hval : validateRegExp (createUrlFilterString rule) =
              .error MSG_LOOKAHEAD := by
            unfold validateRegExp
            simp only [h1, h2, h3, h4, Bool.false_eq_true, if_false, if_true]
          obtain ⟨hc1, hc2, hc3⟩ :=
            regexFail_pipeline toPuny rule bfs st MSG_LOOKAHEAD hkind hcsp hval
          exact ⟨MSG_LOOKAHEAD, hval, by simp,
            fun hb => absurd hb (by simp),
            fun _ hp => absurd hp (by simp),
            fun _ _ ha => absurd ha (by simp),
            fun _ _ _ _ => rfl,
            fun _ _ _ hn _ => absurd hn (by simp),
            hc1, hc2, hc3 hbfs⟩
        | false =>
          cases h5 : hasBadMeta (createUrlFilterString rule).toList with
          | true =>
            have hval : validateRegExp (createUrlFilterString rule) =
                .error MSG_META := by
              unfold validateRegExp
              simp only [h1, h2, h3, h4, h5, Bool.false_eq_true, if_false,
                if_true]
            obtain ⟨hc1, hc2, hc3⟩ :=
              regexFail_pipeline toPuny rule bfs st MSG_META hkind hcsp hval
            exact ⟨MSG_META, hval, by simp,
              fun hb => absurd hb (by simp),
              fun _ hp => absurd hp (by simp),
              fun _ _ ha => absurd ha (by simp),
              fun _ _ _ hn => absurd hn (by simp),
              fun _ _ _ _ _ => rfl,
              hc1, hc2, hc3 hbfs⟩
          | false =>
            simp only [h1, h2, h3, h4, h5] at hmatch
            simp at hmatch

/-- A regex url rule with a brace quantifier (`/foo{1,3}bar/`). -/
def c6Rule : AGRule :=
  { kind := .url, ruleText := "/foo\x7b1,3\x7dbar/",
    urlRuleText := "/foo\x7b1,3\x7dbar/", isRegexRule := true,
    urlRegExp := some "foo\x7b1,3\x7dbar" }

/-- Witness for C6 at the concrete brace-quantifier regex rule. -/
theorem claim_C6_witness :
    hasBraceQuant (createUrlFilterString c6Rule).toList = true ∧
    (∃ msg, validateRegExp (createUrlFilterString c6Rule) = .error msg ∧
      msg ∈ [MSG_BRACES, MSG_PIPE, MSG_NON_ASCII, MSG_LOOKAHEAD, MSG_META] ∧
      (hasBraceQuant (createUrlFilterString c6Rule).toList = true →
        msg = MSG_BRACES) ∧
      (hasBraceQuant (createUrlFilterString c6Rule).toList = false →
        hasUnescapedPipe (createUrlFilterString c6Rule).toList = true →
        msg = MSG_PIPE) ∧
      (hasBraceQuant (createUrlFilterString c6Rule).toList = false →
        hasUnescapedPipe (createUrlFilterString c6Rule).toList = false →
        hasNonAscii (createUrlFilterString c6Rule).toList = true →
        msg = MSG_NON_ASCII) ∧
      (hasBraceQuant (createUrlFilterString c6Rule).toList = false →
        hasUnescapedPipe (createUrlFilterString c6Rule).toList = false →
        hasNonAscii (createUrlFilterString c6Rule).toList = false →
        hasNegLookahead (createUrlFilterString c6Rule).toList = true →
        msg = MSG_LOOKAHEAD) ∧
      (hasBraceQuant (createUrlFilterString c6Rule).toList = false →
        hasUnescapedPipe (createUrlFilterString c6Rule).toList = false →
        hasNonAscii (createUrlFilterString c6Rule).toList = false →
        hasNegLookahead (createUrlFilterString c6Rule).toList = false →
        hasBadMeta (createUrlFilterString c6Rule).toList = true →
        msg = MSG_META) ∧
      convertUrlFilterRule id c6Rule = .error msg ∧
      convertAGRule id c6Rule ({} : PipeState).cb.errors =
        (none, ({} : PipeState).cb.errors ++ [convErrMsg c6Rule msg]) ∧
      cbStep id [] ({} : PipeState) c6Rule =
        {({} : PipeState) with cb :=
          {({} : PipeState).cb with errors :=
            ({} : PipeState).cb.errors ++ [convErrMsg c6Rule msg]}}) :=
  ⟨by decide,
    claim_C6 id c6Rule [] {} rfl rfl (Or.inl (by decide)) (by decide)⟩

end SafariConverter
